import Mathlib

/-!
Verification of the multi-agent user-journey documenter core against its
natural-language specification.

The development shallowly embeds the JavaScript sources:
* `toolRegistry.js` (`ToolRegistry`): tool catalog plus per-role permission sets,
  modelled as association lists mirroring JavaScript `Map`/`Set` insertion-order
  semantics;
* `agentSystem.js` (`AgentSystem`): task creation, the four-phase workflow,
  status updates and history, modelled as an explicit event trace;
* `mcpClient.js` (`MCPClient`): tool-name normalization, the single HTTP
  exchange of `executeTool`, with process start and HTTP outcomes supplied as
  an environment.
-/

namespace UserJourney

/-! ### Association-list model of JavaScript `Map` and `Set`

JavaScript `Map` keeps unique keys in insertion order; `set` on an existing key
replaces the value in place, otherwise appends.  `Set.add` appends if absent.
The registry only ever builds maps through these operations, so keys stay
unique and the recursive first-occurrence versions below coincide with the
JavaScript behaviour. -/

/-- `Map.prototype.get`: value at the first matching key, if any. -/
def mapGet? {α : Type} : List (String × α) → String → Option α
  | [], _ => none
  | (a, b) :: t, k => if a = k then some b else mapGet? t k

/-- `Map.prototype.set`: replace in place at an existing key, else append. -/
def mapSet {α : Type} : List (String × α) → String → α → List (String × α)
  | [], k, v => [(k, v)]
  | (a, b) :: t, k, v => if a = k then (k, v) :: t else (a, b) :: mapSet t k v

/-- `Map.prototype.delete` (key removal; on unique-key maps the filter form
is the JavaScript behaviour). -/
def mapDelete {α : Type} (m : List (String × α)) (k : String) : List (String × α) :=
  m.filter (fun p => ¬ p.1 = k)

/-- `Map.prototype.has`. -/
def mapHas {α : Type} (m : List (String × α)) (k : String) : Bool :=
  m.any (fun p => p.1 = k)

/-- `Set.prototype.add`: append if absent. -/
def setAdd (s : List String) (x : String) : List String :=
  if x ∈ s then s else s ++ [x]

theorem mapGet?_mapSet_self {α : Type} (m : List (String × α)) (k : String) (v : α) :
    mapGet? (mapSet m k v) k = some v := by
  induction m with
  | nil => simp [mapSet, mapGet?]
  | cons p t ih =>
    obtain ⟨a, b⟩ := p
    by_cases h : a = k
    · simp [mapSet, h, mapGet?]
    · simp [mapSet, h, mapGet?, ih]

theorem mapGet?_mapSet_ne {α : Type} (m : List (String × α)) (k r : String) (v : α)
    (h : r ≠ k) : mapGet? (mapSet m k v) r = mapGet? m r := by
  induction m with
  | nil =>
    simp only [mapSet, mapGet?]
    rw [if_neg (fun hh : k = r => h hh.symm)]
  | cons p t ih =>
    obtain ⟨a, b⟩ := p
    by_cases ha : a = k
    · subst ha
      simp only [mapSet, if_pos rfl, mapGet?]
      rw [if_neg (fun hh : a = r => h hh.symm), if_neg (fun hh : a = r => h hh.symm)]
    · simp only [mapSet, if_neg ha, mapGet?]
      by_cases hr : a = r
      · rw [if_pos hr, if_pos hr]
      · rw [if_neg hr, if_neg hr, ih]

theorem mapGet?_mapDelete_self {α : Type} (m : List (String × α)) (k : String) :
    mapGet? (mapDelete m k) k = none := by
  induction m with
  | nil => simp [mapDelete, mapGet?]
  | cons p t ih =>
    obtain ⟨a, b⟩ := p
    by_cases ha : a = k
    · simpa [mapDelete, List.filter_cons, ha] using ih
    · simpa [mapDelete, List.filter_cons, ha, mapGet?] using ih

theorem mapGet?_mapDelete_ne {α : Type} (m : List (String × α)) (k r : String)
    (h : r ≠ k) : mapGet? (mapDelete m k) r = mapGet? m r := by
  induction m with
  | nil => simp [mapDelete, mapGet?]
  | cons p t ih =>
    obtain ⟨a, b⟩ := p
    by_cases ha : a = k
    · subst ha
      have har : ¬ a = r := fun hh => h hh.symm
      simp only [mapDelete, List.filter_cons] at ih ⊢
      simpa [mapGet?, har] using ih
    · by_cases hr : a = r
      · subst hr
        simp [mapDelete, List.filter_cons, ha, mapGet?]
      · simp only [mapDelete, List.filter_cons] at ih ⊢
        simpa [ha, mapGet?, hr] using ih

theorem mapHas_eq_isSome {α : Type} (m : List (String × α)) (k : String) :
    mapHas m k = (mapGet? m k).isSome := by
  induction m with
  | nil => simp [mapHas, mapGet?]
  | cons p t ih =>
    obtain ⟨a, b⟩ := p
    by_cases h : a = k
    · simp [mapHas, mapGet?, h]
    · simp [mapHas, mapGet?, h, ← ih]

theorem mapGet?_map_value {α β : Type} (f : α → β) (m : List (String × α)) (k : String) :
    mapGet? (m.map (fun p => (p.1, f p.2))) k = (mapGet? m k).map f := by
  induction m with
  | nil => simp [mapGet?]
  | cons p t ih =>
    obtain ⟨a, b⟩ := p
    by_cases h : a = k
    · simp [mapGet?, h]
    · simp [mapGet?, h, ih]

theorem mem_setAdd_self (s : List String) (x : String) : x ∈ setAdd s x := by
  unfold setAdd
  by_cases h : x ∈ s
  · rw [if_pos h]; exact h
  · rw [if_neg h]; exact List.mem_append.mpr (Or.inr (List.mem_singleton.mpr rfl))

theorem mem_setAdd_of_mem (s : List String) (x y : String) (h : y ∈ s) :
    y ∈ setAdd s x := by
  unfold setAdd
  by_cases hx : x ∈ s
  · rw [if_pos hx]; exact h
  · rw [if_neg hx]; exact List.mem_append.mpr (Or.inl h)

theorem mem_setAdd_elim (s : List String) (x y : String) (h : y ∈ setAdd s x) :
    y ∈ s ∨ y = x := by
  unfold setAdd at h
  by_cases hx : x ∈ s
  · simp only [if_pos hx] at h
    exact Or.inl h
  · simp only [if_neg hx, List.mem_append, List.mem_singleton] at h
    exact h

/-! ### Tool definitions (`toolRegistry.js`)

Parameter schemas are the duck-typed JSON-schema objects the source passes
around: a top-level object type with named properties, each property carrying
an optional `type`, `description`, `default` literal and, for arrays, an
optional `items` schema. -/

/-- A JSON literal appearing as a `default` value in a schema. -/
inductive JsonLit : Type
  | str (s : String)
  | num (n : Int)
  | bool (b : Bool)
  deriving DecidableEq, Repr

/-- The `items` sub-schema of an array-typed property. -/
structure ItemsSchema : Type where
  type : Option String
  defaultVal : Option JsonLit
  deriving DecidableEq, Repr

/-- One property of a tool's parameter schema. -/
structure PropSchema : Type where
  type : Option String
  description : Option String
  defaultVal : Option JsonLit
  items : Option ItemsSchema
  deriving DecidableEq, Repr

/-- The `parameters` schema of a tool definition. -/
structure ParamsSchema : Type where
  type : Option String
  properties : List (String × PropSchema)
  required : List String
  deriving DecidableEq, Repr

/-- A tool definition as registered with `ToolRegistry.registerTool`.
`parameters = none` models a missing `parameters` field (falsy in the source's
validation check, as are empty `name`/`description` strings). -/
structure ToolDefinition : Type where
  name : String
  description : String
  parameters : Option ParamsSchema
  allowedAgents : Option (List String)
  deriving DecidableEq, Repr

/-- `tool.allowedAgents || ['executor']` from `registerTool`. -/
def allowedRoles (t : ToolDefinition) : List String :=
  t.allowedAgents.getD ["executor"]

/-- The two maps held by a `ToolRegistry` instance: `tools` (name → definition)
and `agentTools` (role → set of permitted tool names). -/
structure RegistryState : Type where
  tools : List (String × ToolDefinition)
  agentTools : List (String × List String)
  deriving DecidableEq, Repr

/-- The permission-update loop of `registerTool`: for each role in
`allowedAgents`, ensure the role has a set and add the tool name to it. -/
def addToolToRoles (m : List (String × List String)) (roles : List String)
    (toolName : String) : List (String × List String) :=
  roles.foldl (fun acc r => mapSet acc r (setAdd ((mapGet? acc r).getD []) toolName)) m

/-- `ToolRegistry.registerTool`: throws unless `name`, `description` and
`parameters` are all truthy; otherwise stores/overwrites the definition and
grants the name to each role in `allowedAgents` (default `['executor']`). -/
def registerTool (s : RegistryState) (t : ToolDefinition) : Except String RegistryState :=
  if t.name = "" ∨ t.description = "" ∨ t.parameters = none then
    Except.error "Tool must have name, description, and parameters"
  else
    Except.ok
      { tools := mapSet s.tools t.name t
        agentTools := addToolToRoles s.agentTools (allowedRoles t) t.name }

/-- `ToolRegistry.getAllTools`. -/
def getAllTools (s : RegistryState) : List ToolDefinition :=
  s.tools.map (fun p => p.2)

/-- `ToolRegistry.getToolsForAgent`: `[]` for an unknown role, otherwise the
role's names mapped through the tools map with missing entries filtered out
(`.map(name => this.tools.get(name)).filter(Boolean)`). -/
def getToolsForAgent (s : RegistryState) (agentRole : String) : List ToolDefinition :=
  match mapGet? s.agentTools agentRole with
  | none => []
  | some toolNames => toolNames.filterMap (fun n => mapGet? s.tools n)

/-- `ToolRegistry.hasTool`. -/
def hasTool (s : RegistryState) (toolName : String) : Bool :=
  mapHas s.tools toolName

/-- `ToolRegistry.getTool` (`null` becomes `none`). -/
def getTool (s : RegistryState) (toolName : String) : Option ToolDefinition :=
  mapGet? s.tools toolName

/-- `ToolRegistry.unregisterTool`: `false` if absent; otherwise removes the
definition and strips the name from every role's permitted set. -/
def unregisterTool (s : RegistryState) (toolName : String) : Bool × RegistryState :=
  if mapHas s.tools toolName then
    (true,
      { tools := mapDelete s.tools toolName
        agentTools := s.agentTools.map (fun p => (p.1, p.2.filter (fun x => ¬ x = toolName))) })
  else (false, s)

/-! The four custom tools registered by `_registerDefaultTools` (the instance
used by `AgentSystem` is built without a started MCP catalog contributing
further definitions; the Playwright catalog entries go through the very same
`registerTool`, so the invariants proved below do not depend on which
default tools are present). -/

/-- `web_search` default tool. -/
def webSearchTool : ToolDefinition :=
  { name := "web_search"
    description := "Search the web for information"
    parameters := some
      { type := some "object"
        properties :=
          [("query", { type := some "string", description := some "The search query"
                       defaultVal := none, items := none }),
           ("num_results", { type := some "integer"
                             description := some "Number of results to return"
                             defaultVal := some (JsonLit.num 5), items := none })]
        required := ["query"] }
    allowedAgents := some ["executor", "thinker"] }

/-- `read_file` default tool. -/
def readFileTool : ToolDefinition :=
  { name := "read_file"
    description := "Read the contents of a file"
    parameters := some
      { type := some "object"
        properties :=
          [("path", { type := some "string", description := some "Path to the file to read"
                      defaultVal := none, items := none })]
        required := ["path"] }
    allowedAgents := some ["executor"] }

/-- `write_file` default tool. -/
def writeFileTool : ToolDefinition :=
  { name := "write_file"
    description := "Write content to a file"
    parameters := some
      { type := some "object"
        properties :=
          [("path", { type := some "string", description := some "Path to the file to write"
                      defaultVal := none, items := none }),
           ("content", { type := some "string"
                         description := some "Content to write to the file"
                         defaultVal := none, items := none }),
           ("append", { type := some "boolean"
                        description := some "Whether to append to the file or overwrite it"
                        defaultVal := some (JsonLit.bool false), items := none })]
        required := ["path", "content"] }
    allowedAgents := some ["executor"] }

/-- `run_command` default tool. -/
def runCommandTool : ToolDefinition :=
  { name := "run_command"
    description := "Run a shell command"
    parameters := some
      { type := some "object"
        properties :=
          [("command", { type := some "string", description := some "The command to run"
                         defaultVal := none, items := none }),
           ("cwd", { type := some "string"
                     description := some "The working directory to run the command in"
                     defaultVal := some (JsonLit.str "."), items := none })]
        required := ["command"] }
    allowedAgents := some ["executor"] }

/-- The tools registered by the `ToolRegistry` constructor. -/
def defaultTools : List ToolDefinition :=
  [webSearchTool, readFileTool, writeFileTool, runCommandTool]

/-! ### Registration histories and the registry invariant -/

/-- A mutation of the registry. -/
inductive RegOp : Type
  | register (t : ToolDefinition)
  | unregister (n : String)

/-- Apply one operation; a rejected registration mutates nothing (the
validation check in `registerTool` precedes every write). -/
def applyRegOp (s : RegistryState) : RegOp → RegistryState
  | RegOp.register t =>
    match registerTool s t with
    | Except.ok s' => s'
    | Except.error _ => s
  | RegOp.unregister n => (unregisterTool s n).2

/-- Registry with no tools (the state before `_registerDefaultTools`). -/
def emptyRegistry : RegistryState := { tools := [], agentTools := [] }

/-- The registry as constructed by `new ToolRegistry(...)`. -/
def initialRegistry : RegistryState :=
  defaultTools.foldl (fun s t => applyRegOp s (RegOp.register t)) emptyRegistry

/-- States reachable from the constructed registry through any sequence of
register/unregister operations. -/
def ReachableRegistry (s : RegistryState) : Prop :=
  ∃ ops : List RegOp, s = ops.foldl applyRegOp initialRegistry

/-- The registry invariant: stored definitions are keyed by their own name,
every role named by a stored definition's `allowedAgents` holds that name in
its permitted set, and permitted sets only mention stored names. -/
def RegInv (s : RegistryState) : Prop :=
  (∀ n d, mapGet? s.tools n = some d → d.name = n) ∧
  (∀ n d, mapGet? s.tools n = some d → ∀ r ∈ allowedRoles d,
      ∃ ns, mapGet? s.agentTools r = some ns ∧ n ∈ ns) ∧
  (∀ r ns, mapGet? s.agentTools r = some ns → ∀ x ∈ ns, (mapGet? s.tools x).isSome)

theorem addToolToRoles_keep (roles : List String) (m : List (String × List String))
    (toolName r x : String) (ns : List String) (hr : mapGet? m r = some ns) (hx : x ∈ ns) :
    ∃ ns', mapGet? (addToolToRoles m roles toolName) r = some ns' ∧ x ∈ ns' := by
  induction roles generalizing m ns with
  | nil => exact ⟨ns, hr, hx⟩
  | cons r0 rs ih =>
    simp only [addToolToRoles, List.foldl_cons] at ih ⊢
    by_cases hrr : r = r0
    · subst hrr
      have : mapGet? (mapSet m r (setAdd ((mapGet? m r).getD []) toolName)) r
          = some (setAdd ns toolName) := by
        rw [hr]; exact mapGet?_mapSet_self _ _ _
      exact ih _ _ this (mem_setAdd_of_mem _ _ _ hx)
    · have : mapGet? (mapSet m r0 (setAdd ((mapGet? m r0).getD []) toolName)) r
          = some ns := by
        rw [mapGet?_mapSet_ne _ _ _ _ hrr, hr]
      exact ih _ _ this hx

theorem addToolToRoles_mem (roles : List String) (m : List (String × List String))
    (toolName r : String) (hr : r ∈ roles) :
    ∃ ns', mapGet? (addToolToRoles m roles toolName) r = some ns' ∧ toolName ∈ ns' := by
  induction roles generalizing m with
  | nil => cases hr
  | cons r0 rs ih =>
    simp only [addToolToRoles, List.foldl_cons] at ih ⊢
    rcases List.mem_cons.mp hr with h0 | hmem
    · subst h0
      have hstep : mapGet? (mapSet m r (setAdd ((mapGet? m r).getD []) toolName)) r
          = some (setAdd ((mapGet? m r).getD []) toolName) := mapGet?_mapSet_self _ _ _
      exact addToolToRoles_keep rs _ toolName r toolName _ hstep (mem_setAdd_self _ _)
    · exact ih _ hmem

theorem addToolToRoles_skip (roles : List String) (m : List (String × List String))
    (toolName r : String) (hr : r ∉ roles) :
    mapGet? (addToolToRoles m roles toolName) r = mapGet? m r := by
  induction roles generalizing m with
  | nil => rfl
  | cons r0 rs ih =>
    simp only [addToolToRoles, List.foldl_cons] at ih ⊢
    have hne : r ≠ r0 := fun hh => hr (hh ▸ List.mem_cons_self r0 rs)
    have hrs : r ∉ rs := fun hh => hr (List.mem_cons_of_mem r0 hh)
    rw [ih _ hrs, mapGet?_mapSet_ne _ _ _ _ hne]

theorem addToolToRoles_bound (roles : List String) (m : List (String × List String))
    (toolName r x : String) (ns' : List String)
    (hr : mapGet? (addToolToRoles m roles toolName) r = some ns') (hx : x ∈ ns') :
    (∃ ns, mapGet? m r = some ns ∧ x ∈ ns) ∨ x = toolName := by
  induction roles generalizing m with
  | nil => exact Or.inl ⟨ns', hr, hx⟩
  | cons r0 rs ih =>
    simp only [addToolToRoles, List.foldl_cons] at hr
    rcases ih _ hr with ⟨ns1, hns1, hxns1⟩ | heq
    · by_cases hrr : r = r0
      · subst hrr
        rw [mapGet?_mapSet_self] at hns1
        cases hns1
        rcases mem_setAdd_elim _ _ _ hxns1 with hold | hnew
        · cases hmr : mapGet? m r with
          | none => rw [hmr] at hold; cases hold
          | some ns0 => rw [hmr] at hold; exact Or.inl ⟨ns0, rfl, hold⟩
        · exact Or.inr hnew
      · rw [mapGet?_mapSet_ne _ _ _ _ hrr] at hns1
        exact Or.inl ⟨ns1, hns1, hxns1⟩
    · exact Or.inr heq

theorem regInv_empty : RegInv emptyRegistry := by
  refine ⟨?_, ?_, ?_⟩ <;> intro n d h <;> simp [emptyRegistry, mapGet?] at h

theorem regInv_registerTool (s : RegistryState) (t : ToolDefinition) (s' : RegistryState)
    (hinv : RegInv s) (hok : registerTool s t = Except.ok s') : RegInv s' := by
  obtain ⟨inv1, inv2, inv3⟩ := hinv
  unfold registerTool at hok
  by_cases hvalid : t.name = "" ∨ t.description = "" ∨ t.parameters = none
  · rw [if_pos hvalid] at hok; cases hok
  · rw [if_neg hvalid] at hok
    cases hok
    refine ⟨?_, ?_, ?_⟩
    · intro n d h
      by_cases hn : n = t.name
      · subst hn
        rw [mapGet?_mapSet_self] at h
        cases h
        rfl
      · rw [mapGet?_mapSet_ne _ _ _ _ hn] at h
        exact inv1 n d h
    · intro n d h r hrole
      by_cases hn : n = t.name
      · subst hn
        rw [mapGet?_mapSet_self] at h
        cases h
        exact addToolToRoles_mem _ _ _ _ hrole
      · rw [mapGet?_mapSet_ne _ _ _ _ hn] at h
        obtain ⟨ns, hns, hmem⟩ := inv2 n d h r hrole
        exact addToolToRoles_keep _ _ _ _ _ _ hns hmem
    · intro r ns hns x hx
      rcases addToolToRoles_bound _ _ _ _ _ _ hns hx with ⟨ns0, hns0, hxns0⟩ | heq
      · by_cases hxn : x = t.name
        · subst hxn
          rw [mapGet?_mapSet_self]
          rfl
        · rw [mapGet?_mapSet_ne _ _ _ _ hxn]
          exact inv3 r ns0 hns0 x hxns0
      · subst heq
        rw [mapGet?_mapSet_self]
        rfl

theorem regInv_unregisterTool (s : RegistryState) (n : String) (hinv : RegInv s) :
    RegInv (unregisterTool s n).2 := by
  obtain ⟨inv1, inv2, inv3⟩ := hinv
  unfold unregisterTool
  by_cases hhas : mapHas s.tools n
  · rw [if_pos hhas]
    refine ⟨?_, ?_, ?_⟩
    · intro m d h
      by_cases hm : m = n
      · subst hm
        rw [mapGet?_mapDelete_self] at h
        cases h
      · rw [mapGet?_mapDelete_ne _ _ _ hm] at h
        exact inv1 m d h
    · intro m d h r hrole
      by_cases hm : m = n
      · subst hm
        rw [mapGet?_mapDelete_self] at h
        cases h
      · rw [mapGet?_mapDelete_ne _ _ _ hm] at h
        obtain ⟨ns, hns, hmem⟩ := inv2 m d h r hrole
        refine ⟨ns.filter (fun x => ¬ x = n), ?_, ?_⟩
        · rw [mapGet?_map_value (fun l => l.filter (fun x => ¬ x = n)) s.agentTools r, hns]
          rfl
        · exact List.mem_filter.mpr ⟨hmem, by simpa using hm⟩
    · intro r ns' hns' x hx
      rw [mapGet?_map_value (fun l => l.filter (fun x => ¬ x = n)) s.agentTools r] at hns'
      cases hns0 : mapGet? s.agentTools r with
      | none => rw [hns0] at hns'; cases hns'
      | some ns0 =>
        rw [hns0] at hns'
        cases hns'
        have hx0 := List.mem_filter.mp hx
        have hxn : x ≠ n := by simpa using hx0.2
        rw [mapGet?_mapDelete_ne _ _ _ hxn]
        exact inv3 r ns0 hns0 x hx0.1
  · rw [if_neg hhas]
    exact ⟨inv1, inv2, inv3⟩

theorem regInv_applyRegOp (s : RegistryState) (op : RegOp) (hinv : RegInv s) :
    RegInv (applyRegOp s op) := by
  cases op with
  | register t =>
    have heq : applyRegOp s (RegOp.register t) =
        (match registerTool s t with
         | Except.ok s' => s'
         | Except.error _ => s) := rfl
    rw [heq]
    cases hreg : registerTool s t with
    | ok s' => exact regInv_registerTool s t s' hinv hreg
    | error e => exact hinv
  | unregister n => exact regInv_unregisterTool s n hinv

theorem regInv_foldl (ops : List RegOp) (s : RegistryState) (hinv : RegInv s) :
    RegInv (ops.foldl applyRegOp s) := by
  induction ops generalizing s with
  | nil => exact hinv
  | cons op rest ih => exact ih _ (regInv_applyRegOp s op hinv)

theorem regInv_initialRegistry : RegInv initialRegistry := by
  have h : ∀ (ts : List ToolDefinition) (s : RegistryState), RegInv s →
      RegInv (ts.foldl (fun s t => applyRegOp s (RegOp.register t)) s) := by
    intro ts
    induction ts with
    | nil => intro s hs; exact hs
    | cons t rest ih =>
      intro s hs
      exact ih _ (regInv_applyRegOp s (RegOp.register t) hs)
  exact h defaultTools emptyRegistry regInv_empty

theorem regInv_reachable (s : RegistryState) (hs : ReachableRegistry s) : RegInv s := by
  obtain ⟨ops, rfl⟩ := hs
  exact regInv_foldl ops initialRegistry regInv_initialRegistry

/-! ### Schema normalization (`mcpClient.js`, `_validateAndFixToolDefinitions`)

This normalization runs only in `MCPClient.registerTools`, on the client's own
built-in catalog — `ToolRegistry.registerTool` itself never touches the
schema. -/

/-- First mutation of the property loop in `_validateAndFixToolDefinitions`:
`delete prop.default`. -/
def stripDefaultProp (p : PropSchema) : PropSchema :=
  { p with defaultVal := none }

/-- Second mutation: add `items: {type: 'string'}` to array properties that
lack `items`. -/
def backfillItems (p : PropSchema) : PropSchema :=
  if p.type = some "array" ∧ p.items = none then
    { p with items := some ({ type := some "string", defaultVal := none } : ItemsSchema) }
  else p

/-- Third mutation: when `items` is present, `delete items.default` and ensure
`items.type` (defaulting it to `string`). -/
def fixItems (p : PropSchema) : PropSchema :=
  match p.items with
  | some it =>
    { p with
      items := some ({ type := if it.type = none then some "string" else it.type,
                       defaultVal := none } : ItemsSchema) }
  | none => p

/-- Per-property part of `_validateAndFixToolDefinitions`: the three mutations
in the order the source performs them. -/
def fixPropSchema (p : PropSchema) : PropSchema :=
  fixItems (backfillItems (stripDefaultProp p))

theorem backfillItems_type (p : PropSchema) : (backfillItems p).type = p.type := by
  unfold backfillItems
  by_cases hc : p.type = some "array" ∧ p.items = none
  · rw [if_pos hc]
  · rw [if_neg hc]

theorem fixItems_type (p : PropSchema) : (fixItems p).type = p.type := by
  unfold fixItems
  cases p.items <;> rfl

theorem backfillItems_array (p : PropSchema) (h : p.type = some "array") :
    (backfillItems p).items ≠ none := by
  unfold backfillItems
  by_cases hc : p.type = some "array" ∧ p.items = none
  · rw [if_pos hc]
    intro hh
    exact Option.noConfusion hh
  · rw [if_neg hc]
    intro hh
    exact hc ⟨h, hh⟩

theorem fixItems_array_items (p : PropSchema) (h : p.items ≠ none) :
    ∃ it, (fixItems p).items = some it ∧ it.type ≠ none := by
  unfold fixItems
  cases hit : p.items with
  | none => exact absurd hit h
  | some it0 =>
    refine ⟨_, rfl, ?_⟩
    by_cases ht : it0.type = none
    · rw [if_pos ht]
      intro hh
      exact Option.noConfusion hh
    · rw [if_neg ht]
      exact ht

theorem fixPropSchema_array (q : PropSchema) (h : (fixPropSchema q).type = some "array") :
    ∃ it, (fixPropSchema q).items = some it ∧ it.type ≠ none := by
  unfold fixPropSchema at h ⊢
  rw [fixItems_type, backfillItems_type] at h
  exact fixItems_array_items _ (backfillItems_array _ h)


/-- Whole-definition part of `_validateAndFixToolDefinitions` (skips tools
without `parameters`, defaults the top-level `type` to `object`). -/
def validateAndFixToolDefinition (t : ToolDefinition) : ToolDefinition :=
  match t.parameters with
  | none => t
  | some ps =>
    { t with
      parameters := some ({ type := if ps.type = none then some "object" else ps.type,
                            properties := ps.properties.map (fun q => (q.1, fixPropSchema q.2)),
                            required := ps.required } : ParamsSchema) }

theorem validateAndFix_params_none (t : ToolDefinition) (h : t.parameters = none) :
    (validateAndFixToolDefinition t).parameters = none := by
  unfold validateAndFixToolDefinition
  rw [h]
  exact h

theorem validateAndFix_params (t : ToolDefinition) (ps0 : ParamsSchema)
    (h : t.parameters = some ps0) :
    (validateAndFixToolDefinition t).parameters =
      some ({ type := if ps0.type = none then some "object" else ps0.type,
              properties := ps0.properties.map (fun q => (q.1, fixPropSchema q.2)),
              required := ps0.required } : ParamsSchema) := by
  unfold validateAndFixToolDefinition
  rw [h]

/-! ### Task orchestration (`agentSystem.js`)

The four role-agent calls are external collaborators; an `AgentEnv` records,
for each phase, whether the agent's `process` call returned text or threw.
The orchestrator's behaviour is captured as the trace of the internal events
it performs on the task record: status updates (each of which `AgentSystem`
also broadcasts as a `task_update`) and history appends. -/

/-- The task `status` values of the specification. -/
inductive TaskStatus : Type
  | pending
  | thinking
  | planning
  | executing
  | reviewing
  | completed
  | failed
  deriving DecidableEq, Repr

/-- One of the four pipeline phases. -/
inductive Phase : Type
  | thinking
  | planning
  | executing
  | reviewing
  deriving DecidableEq, Repr

/-- A `{phase, output, timestamp}` record of `task.history`. -/
structure HistoryEntry : Type where
  phase : Phase
  output : String
  timestamp : Nat
  deriving DecidableEq, Repr

/-- A non-null `result` payload passed to `_updateTaskStatus`: the final
aggregate on completion (`finalResult` is the review output), or `{error}`
on failure. -/
inductive TaskResult : Type
  | aggregate (thinking planning execution review finalResult : String)
  | failure (error : String)
  deriving DecidableEq, Repr

/-- The mutable task record created by `startTask`. -/
structure TaskState : Type where
  id : String
  prompt : String
  status : TaskStatus
  history : List HistoryEntry
  result : Option TaskResult
  startTime : Nat
  endTime : Option Nat
  deriving DecidableEq, Repr

/-- Outcomes of the four role agents' `process` calls for one task:
`Except.error` models a thrown error (carrying `error.message`). -/
structure AgentEnv : Type where
  thinker : Except String String
  planner : Except String String
  executor : Except String String
  reviewer : Except String String

/-- An internal mutation of the task record: `_updateTaskStatus` (which also
broadcasts a `task_update` event) or a `task.history.push`. -/
inductive WfEvent : Type
  | update (status : TaskStatus) (result : Option TaskResult)
  | append (entry : HistoryEntry)
  deriving DecidableEq, Repr

/-- `_updateTaskStatus` / `history.push` semantics: an update sets `status`,
sets `result` only when non-null, and (re)assigns `endTime` on a terminal
status; an append adds one record at the end of `history`. -/
def applyWfEvent (now : Nat) (t : TaskState) : WfEvent → TaskState
  | WfEvent.update st r =>
    let t1 := { t with status := st }
    let t2 := match r with
      | some res => { t1 with result := some res }
      | none => t1
    if st = TaskStatus.completed ∨ st = TaskStatus.failed then
      { t2 with endTime := some now }
    else t2
  | WfEvent.append e => { t with history := t.history ++ [e] }

/-- The event trace of `_executeAgentWorkflow`, paired with the message of the
error it re-throws after its own catch block (if any phase threw). -/
def innerWorkflowEvents (env : AgentEnv) (now : Nat) : List WfEvent × Option String :=
  match env.thinker with
  | Except.error e =>
    ([WfEvent.update TaskStatus.thinking none,
      WfEvent.update TaskStatus.failed (some (TaskResult.failure e))], some e)
  | Except.ok th =>
    match env.planner with
    | Except.error e =>
      ([WfEvent.update TaskStatus.thinking none,
        WfEvent.append { phase := Phase.thinking, output := th, timestamp := now },
        WfEvent.update TaskStatus.planning none,
        WfEvent.update TaskStatus.failed (some (TaskResult.failure e))], some e)
    | Except.ok pl =>
      match env.executor with
      | Except.error e =>
        ([WfEvent.update TaskStatus.thinking none,
          WfEvent.append { phase := Phase.thinking, output := th, timestamp := now },
          WfEvent.update TaskStatus.planning none,
          WfEvent.append { phase := Phase.planning, output := pl, timestamp := now },
          WfEvent.update TaskStatus.executing none,
          WfEvent.update TaskStatus.failed (some (TaskResult.failure e))], some e)
      | Except.ok ex =>
        match env.reviewer with
        | Except.error e =>
          ([WfEvent.update TaskStatus.thinking none,
            WfEvent.append { phase := Phase.thinking, output := th, timestamp := now },
            WfEvent.update TaskStatus.planning none,
            WfEvent.append { phase := Phase.planning, output := pl, timestamp := now },
            WfEvent.update TaskStatus.executing none,
            WfEvent.append { phase := Phase.executing, output := ex, timestamp := now },
            WfEvent.update TaskStatus.reviewing none,
            WfEvent.update TaskStatus.failed (some (TaskResult.failure e))], some e)
        | Except.ok rv =>
          ([WfEvent.update TaskStatus.thinking none,
            WfEvent.append { phase := Phase.thinking, output := th, timestamp := now },
            WfEvent.update TaskStatus.planning none,
            WfEvent.append { phase := Phase.planning, output := pl, timestamp := now },
            WfEvent.update TaskStatus.executing none,
            WfEvent.append { phase := Phase.executing, output := ex, timestamp := now },
            WfEvent.update TaskStatus.reviewing none,
            WfEvent.append { phase := Phase.reviewing, output := rv, timestamp := now },
            WfEvent.update TaskStatus.completed
              (some (TaskResult.aggregate th pl ex rv rv))], none)

/-- The full trace launched by `startTask`: the workflow's own events followed
by the extra `failed` update performed by `startTask`'s `.catch` handler on
the error the workflow re-threw. -/
def startTaskEvents (env : AgentEnv) (now : Nat) : List WfEvent :=
  (innerWorkflowEvents env now).1 ++
    (match (innerWorkflowEvents env now).2 with
     | some e => [WfEvent.update TaskStatus.failed (some (TaskResult.failure e))]
     | none => [])

/-- `Date.now().toString()`: the task id. -/
def genTaskId (now : Nat) : String := toString now

/-- The task object built by `startTask` (note: created with status
`thinking`, not `pending`). -/
def newTask (prompt : String) (now : Nat) : TaskState :=
  { id := genTaskId now
    prompt := prompt
    status := TaskStatus.thinking
    history := []
    result := none
    startTime := now
    endTime := none }

/-- The task record after the first `k` events of the trace. -/
def taskAfter (env : AgentEnv) (prompt : String) (now : Nat) (k : Nat) : TaskState :=
  ((startTaskEvents env now).take k).foldl (applyWfEvent now) (newTask prompt now)

/-- The task record once the whole trace has run. -/
def runTaskFromStart (env : AgentEnv) (prompt : String) (now : Nat) : TaskState :=
  (startTaskEvents env now).foldl (applyWfEvent now) (newTask prompt now)

/-- The sequence of `status` values the task takes: its creation status
followed by the status of every `_updateTaskStatus` call. -/
def statusTrace (env : AgentEnv) (now : Nat) : List TaskStatus :=
  TaskStatus.thinking ::
    (startTaskEvents env now).filterMap (fun e =>
      match e with
      | WfEvent.update st _ => some st
      | WfEvent.append _ => none)

/-- Number of events that assign `endTime` (updates to a terminal status). -/
def terminalUpdateCount (evs : List WfEvent) : Nat :=
  (evs.filter (fun e =>
    match e with
    | WfEvent.update TaskStatus.completed _ => true
    | WfEvent.update TaskStatus.failed _ => true
    | _ => false)).length

/-- The `tasks` map of an `AgentSystem` instance. -/
structure SystemState : Type where
  tasks : List (String × TaskState)
  deriving DecidableEq, Repr

/-- `startTask`: generate the id from the clock, run the workflow, store the
task under its id (a second task with the same id overwrites the first). -/
def startTask (s : SystemState) (prompt : String) (env : AgentEnv) (now : Nat) :
    String × SystemState :=
  let taskId := genTaskId now
  (taskId, { tasks := mapSet s.tasks taskId (runTaskFromStart env prompt now) })

/-! ### Event broadcast (`AgentSystem.registerClient` / `broadcastUpdate`)

The SSE clients map holds one delivery callback per subscriber id.  A
callback's run either returns (`Except.ok`) or throws (`Except.error`). -/

/-- `registerClient`. -/
def registerClient {α : Type} (clients : List (String × (α → Except String Unit)))
    (clientId : String) (sendFunction : α → Except String Unit) :
    List (String × (α → Except String Unit)) :=
  mapSet clients clientId sendFunction

/-- `unregisterClient`. -/
def unregisterClient {α : Type} (clients : List (String × (α → Except String Unit)))
    (clientId : String) : List (String × (α → Except String Unit)) :=
  mapDelete clients clientId

/-- `broadcastUpdate`: invoke the callbacks in registration order.  The loop
body has no try/catch, so a throwing callback ends the loop and its exception
propagates to the caller.  Returns the ids whose callbacks were invoked and
the propagated error, if any. -/
def broadcastUpdate {α : Type} (clients : List (String × (α → Except String Unit)))
    (update : α) : List String × Option String :=
  match clients with
  | [] => ([], none)
  | (clientId, sendFn) :: rest =>
    match sendFn update with
    | Except.ok _ =>
      let p := broadcastUpdate rest update
      (clientId :: p.1, p.2)
    | Except.error e => ([clientId], some e)

/-! ### Tool-execution client (`mcpClient.js`) -/

/-- What the single HTTP exchange of `_makeRequest` encounters: a response
(with status code, raw body text, and the outcome of `JSON.parse` on that
body), a transport error, or a timeout. -/
inductive HttpOutcome : Type
  | response (status : Nat) (raw : String) (parsed : Except String String)
  | transportError (msg : String)
  | timeout

/-- External behaviour met by one `executeTool` call: the outcome `start()`
would have (when invoked) and the outcome of the wire exchange. -/
structure MCPEnv : Type where
  startResult : Except String Unit
  http : HttpOutcome

/-- The `isRunning` flag of the client. -/
structure ClientState : Type where
  isRunning : Bool
  deriving DecidableEq, Repr

/-- One HTTP request issued by `_makeRequest`. -/
structure Request : Type where
  method : String
  url : String
  payload : String
  deriving DecidableEq, Repr

/-- `_makeRequest` result handling: 2xx resolves the parsed body (an empty
body resolves an empty object; a body `JSON.parse` rejects fails the parse
error), any other status, transport failure, or timeout rejects with the
corresponding message. -/
def makeRequest (timeoutMs : Nat) (o : HttpOutcome) : Except String String :=
  match o with
  | HttpOutcome.response status raw parsed =>
    if 200 ≤ status ∧ status < 300 then
      if raw = "" then Except.ok "\x7b\x7d"
      else
        match parsed with
        | Except.ok v => Except.ok v
        | Except.error m => Except.error ("Failed to parse response: " ++ m)
    else Except.error ("HTTP error " ++ toString status ++ ": " ++ raw)
  | HttpOutcome.transportError m => Except.error ("Request failed: " ++ m)
  | HttpOutcome.timeout =>
    Except.error ("Request timed out after " ++ toString timeoutMs ++ "ms")

/-- `toolName.startsWith('browser_')`, on the character list of the string. -/
def hasBrowserWireName (s : String) : Bool :=
  List.isPrefixOf "browser_".data s.data

/-- The wire-name normalization of `executeTool`. -/
def formatToolName (toolName : String) : String :=
  if hasBrowserWireName toolName then toolName else "browser_" ++ toolName

/-- The catch block of `executeTool` re-wraps every failure message. -/
def wrapToolError : Except String String → Except String String
  | Except.ok v => Except.ok v
  | Except.error e => Except.error ("Tool execution failed: " ++ e)

/-- Everything one `executeTool` call did: final client state, number of
`start()` invocations, requests issued, and the returned or thrown result. -/
structure ExecOutcome : Type where
  finalState : ClientState
  startCalls : Nat
  requests : List Request
  result : Except String String

/-- `MCPClient.executeTool`: lazily start when not running (a start failure is
caught and re-wrapped, with no request issued), then POST the arguments to
`baseUrl + "/api/tools/" + formattedToolName` exactly once. -/
def executeTool (timeoutMs : Nat) (baseUrl : String) (env : MCPEnv) (st : ClientState)
    (toolName args : String) : ExecOutcome :=
  if st.isRunning then
    { finalState := st
      startCalls := 0
      requests := [{ method := "POST",
                     url := baseUrl ++ "/api/tools/" ++ formatToolName toolName,
                     payload := args }]
      result := wrapToolError (makeRequest timeoutMs env.http) }
  else
    match env.startResult with
    | Except.error e =>
      { finalState := st
        startCalls := 1
        requests := []
        result := Except.error ("Tool execution failed: " ++ e) }
    | Except.ok _ =>
      { finalState := { isRunning := true }
        startCalls := 1
        requests := [{ method := "POST",
                       url := baseUrl ++ "/api/tools/" ++ formatToolName toolName,
                       payload := args }]
        result := wrapToolError (makeRequest timeoutMs env.http) }

/-! ### Decimal representation of task ids

`genTaskId` is `Nat.repr`; to compare ids of tasks created at different
clock values we prove the decimal representation injective, via an explicit
fuel-free digit list and a left inverse reading the digits back. -/

/-- Decimal digits of `n`, most significant first (what `Nat.toDigitsCore`
computes once its fuel is ample). -/
def natToChars (n : Nat) : List Char :=
  if h : n / 10 = 0 then [Nat.digitChar (n % 10)]
  else natToChars (n / 10) ++ [Nat.digitChar (n % 10)]
termination_by n
decreasing_by
  exact Nat.div_lt_self (Nat.pos_of_ne_zero fun h0 => h (by subst h0; rfl)) (by norm_num)

/-- Read a digit list back into a number (left inverse of `natToChars`). -/
def digitsVal (a : Nat) : List Char → Nat
  | [] => a
  | c :: cs => digitsVal (10 * a + (c.toNat - 48)) cs

theorem digitsVal_append (l1 l2 : List Char) (a : Nat) :
    digitsVal a (l1 ++ l2) = digitsVal (digitsVal a l1) l2 := by
  induction l1 generalizing a with
  | nil => rfl
  | cons c cs ih =>
    show digitsVal (10 * a + (c.toNat - 48)) (cs ++ l2)
        = digitsVal (digitsVal (10 * a + (c.toNat - 48)) cs) l2
    exact ih _

theorem digitChar_decode : ∀ k : Nat, k < 10 → (Nat.digitChar k).toNat - 48 = k := by
  intro k h
  interval_cases k <;> rfl

theorem toDigitsCore_eq_natToChars (fuel : Nat) :
    ∀ (n : Nat) (ds : List Char), n < fuel →
      Nat.toDigitsCore 10 fuel n ds = natToChars n ++ ds := by
  induction fuel with
  | zero => intro n ds h; omega
  | succ f ih =>
    intro n ds h
    by_cases h0 : n / 10 = 0
    · simp only [Nat.toDigitsCore, if_pos h0]
      rw [natToChars, dif_pos h0]
      rfl
    · simp only [Nat.toDigitsCore, if_neg h0]
      have hpos : 0 < n := Nat.pos_of_ne_zero fun hz => h0 (by subst hz; rfl)
      have hlt : n / 10 < f :=
        Nat.lt_of_lt_of_le (Nat.div_lt_self hpos (by norm_num)) (Nat.lt_succ_iff.mp h)
      rw [ih (n / 10) (Nat.digitChar (n % 10) :: ds) hlt]
      conv_rhs => rw [natToChars, dif_neg h0]
      rw [List.append_assoc]
      rfl

theorem digitsVal_natToChars (n : Nat) :
    ∀ a : Nat, digitsVal a (natToChars n) = a * 10 ^ (natToChars n).length + n := by
  induction n using Nat.strong_induction_on with
  | _ n ih =>
    intro a
    by_cases h0 : n / 10 = 0
    · have hn10 : n < 10 := by omega
      rw [natToChars, dif_pos h0]
      have hm : n % 10 = n := Nat.mod_eq_of_lt hn10
      have hval : digitsVal a [Nat.digitChar (n % 10)]
          = 10 * a + ((Nat.digitChar (n % 10)).toNat - 48) := rfl
      rw [hval, hm, digitChar_decode n hn10, List.length_singleton, pow_one]
      omega
    · have hpos : 0 < n := Nat.pos_of_ne_zero fun hz => h0 (by subst hz; rfl)
      have hdiv : n / 10 < n := Nat.div_lt_self hpos (by norm_num)
      rw [natToChars, dif_neg h0, digitsVal_append]
      rw [ih (n / 10) hdiv a]
      have hval : digitsVal (a * 10 ^ (natToChars (n / 10)).length + n / 10)
            [Nat.digitChar (n % 10)]
          = 10 * (a * 10 ^ (natToChars (n / 10)).length + n / 10)
            + ((Nat.digitChar (n % 10)).toNat - 48) := rfl
      rw [hval, digitChar_decode (n % 10) (Nat.mod_lt n (by norm_num)),
        List.length_append, List.length_singleton]
      have halg : 10 * (a * 10 ^ (natToChars (n / 10)).length + n / 10) + n % 10 =
          a * 10 ^ ((natToChars (n / 10)).length + 1) + (10 * (n / 10) + n % 10) := by
        ring
      rw [halg, Nat.div_add_mod]

theorem natToChars_inj (m n : Nat) (h : natToChars m = natToChars n) : m = n := by
  have hm := digitsVal_natToChars m 0
  have hn := digitsVal_natToChars n 0
  rw [h] at hm
  simp only [Nat.zero_mul, Nat.zero_add] at hm hn
  rw [hm] at hn
  exact hn

theorem natRepr_inj (m n : Nat) (h : Nat.repr m = Nat.repr n) : m = n := by
  apply natToChars_inj
  have hm : Nat.repr m = (natToChars m).asString := by
    show (Nat.toDigits 10 m).asString = (natToChars m).asString
    rw [Nat.toDigits, toDigitsCore_eq_natToChars (m + 1) m [] (Nat.lt_succ_self m),
      List.append_nil]
  have hn : Nat.repr n = (natToChars n).asString := by
    show (Nat.toDigits 10 n).asString = (natToChars n).asString
    rw [Nat.toDigits, toDigitsCore_eq_natToChars (n + 1) n [] (Nat.lt_succ_self n),
      List.append_nil]
  rw [hm, hn] at h
  exact List.asString_inj.mp h

theorem genTaskId_inj (m n : Nat) (h : m ≠ n) : genTaskId m ≠ genTaskId n :=
  fun he => h (natRepr_inj m n he)

/-! ### Concrete fixtures used by counterexamples and witnesses -/

/-- A tool first registered for the thinker role only. -/
def c1ToolThinker : ToolDefinition :=
  { name := "x_tool", description := "demo",
    parameters := some { type := some "object", properties := [], required := [] },
    allowedAgents := some ["thinker"] }

/-- The same tool name re-registered with executor-only permissions. -/
def c1ToolExecutor : ToolDefinition :=
  { name := "x_tool", description := "demo",
    parameters := some { type := some "object", properties := [], required := [] },
    allowedAgents := some ["executor"] }

/-- Registry after registering `c1ToolThinker` and then overwriting it with
`c1ToolExecutor` under the same name. -/
def c1State : RegistryState :=
  applyRegOp (applyRegOp initialRegistry (RegOp.register c1ToolThinker))
    (RegOp.register c1ToolExecutor)

/-- An array-typed property with no `items` schema. -/
def valuesProp : PropSchema :=
  { type := some "array", description := none, defaultVal := none, items := none }

/-- A valid tool definition whose array property lacks `items`. -/
def arrayNoItemsTool : ToolDefinition :=
  { name := "journey_steps", description := "records journey steps",
    parameters := some { type := some "object", properties := [("values", valuesProp)],
                         required := [] },
    allowedAgents := none }

/-! ### Claim C1 — role grants after register/unregister sequences -/

/-- Claim C1, counterexample: after registering `x_tool` for the thinker role
and then overwriting it under the same name with executor-only permissions,
the current definition's `allowedAgents` does not contain `thinker`, yet
`x_tool` is still in `getToolsForAgent "thinker"` — re-registration does not
revoke grants made by the earlier registration, refuting the claim's negative
half. -/
theorem c1_roleGrant_counterexample :
    getTool c1State "x_tool" = some c1ToolExecutor ∧
    "thinker" ∉ allowedRoles c1ToolExecutor ∧
    "x_tool" ∈ (getToolsForAgent c1State "thinker").map (fun t => t.name) := by
  refine ⟨by decide, by decide, by decide⟩

/-- Claim C1 (amended): in every reachable registry state, each role listed in
the current definition's `allowedAgents` (default `executor`) does see the
tool in `getToolsForRole`; the converse exclusion holds only for fresh
registrations (a name not currently present): roles outside the fresh
definition's `allowedAgents` do not see it.  For overwriting re-registrations
the old grants persist (see the counterexample). -/
theorem c1_roleGrant_amended (s : RegistryState) (hs : ReachableRegistry s) :
    (∀ n d, getTool s n = some d → ∀ r, r ∈ allowedRoles d →
        n ∈ (getToolsForAgent s r).map (fun t => t.name)) ∧
    (∀ t s' r, hasTool s t.name = false → registerTool s t = Except.ok s' →
        r ∉ allowedRoles t →
        t.name ∉ (getToolsForAgent s' r).map (fun t' => t'.name)) := by
  obtain ⟨inv1, inv2, inv3⟩ := regInv_reachable s hs
  constructor
  · intro n d hget r hr
    have hget' : mapGet? s.tools n = some d := hget
    have hdn : d.name = n := inv1 n d hget'
    obtain ⟨ns, hns, hmem⟩ := inv2 n d hget' r hr
    unfold getToolsForAgent
    rw [hns, List.mem_map]
    refine ⟨d, ?_, hdn⟩
    rw [List.mem_filterMap]
    exact ⟨n, hmem, hget'⟩
  · intro t s' r hfresh hok hnr hmem
    unfold registerTool at hok
    by_cases hval : t.name = "" ∨ t.description = "" ∨ t.parameters = none
    · rw [if_pos hval] at hok; cases hok
    · rw [if_neg hval] at hok
      cases hok
      unfold getToolsForAgent at hmem
      cases hag : mapGet? (addToolToRoles s.agentTools (allowedRoles t) t.name) r with
      | none =>
        rw [hag] at hmem
        exact absurd hmem (by simp)
      | some ns' =>
        rw [hag] at hmem
        rw [List.mem_map] at hmem
        obtain ⟨d, hd, hdname⟩ := hmem
        rw [List.mem_filterMap] at hd
        obtain ⟨x, hxns, hxget⟩ := hd
        by_cases hxt : x = t.name
        · subst hxt
          rw [addToolToRoles_skip _ _ _ _ hnr] at hag
          have hsome := inv3 r ns' hag t.name hxns
          rw [hasTool, mapHas_eq_isSome] at hfresh
          rw [hfresh] at hsome
          exact Bool.noConfusion hsome
        · rw [mapGet?_mapSet_ne _ _ _ _ hxt] at hxget
          have hx := inv1 x d hxget
          rw [hx] at hdname
          exact hxt hdname

/-- Claim C1, witness for the amended theorem at the constructed registry:
`web_search` is granted to the thinker role, which its definition allows. -/
theorem c1_roleGrant_witness :
    "web_search" ∈ (getToolsForAgent initialRegistry "thinker").map (fun t => t.name) :=
  (c1_roleGrant_amended initialRegistry ⟨[], rfl⟩).1 "web_search" webSearchTool
    (by decide) "thinker" (by decide)

/-! ### Claim C9 — `getToolsForRole` returns only live definitions -/

/-- Claim C9: in every reachable registry state, every definition returned by
`getToolsForAgent` is currently stored: `hasTool` holds for its name and
`getTool` returns that very definition (dangling names are filtered out by
`.filter(Boolean)`). -/
theorem c9_toolsForRole (s : RegistryState) (hs : ReachableRegistry s) (r : String)
    (d : ToolDefinition) (hd : d ∈ getToolsForAgent s r) :
    hasTool s d.name = true ∧ getTool s d.name = some d := by
  obtain ⟨inv1, inv2, inv3⟩ := regInv_reachable s hs
  unfold getToolsForAgent at hd
  cases hag : mapGet? s.agentTools r with
  | none =>
    rw [hag] at hd
    exact absurd hd (List.not_mem_nil d)
  | some ns =>
    rw [hag] at hd
    rw [List.mem_filterMap] at hd
    obtain ⟨x, hx, hxd⟩ := hd
    have hname : d.name = x := inv1 x d hxd
    constructor
    · rw [hasTool, mapHas_eq_isSome, hname, hxd]
      rfl
    · show mapGet? s.tools d.name = some d
      rw [hname]
      exact hxd

/-- Claim C9, witness: at the constructed registry, `web_search` as returned
for the executor role is stored and retrievable. -/
theorem c9_toolsForRole_witness :
    hasTool initialRegistry "web_search" = true ∧
    getTool initialRegistry "web_search" = some webSearchTool := by
  have h := c9_toolsForRole initialRegistry ⟨[], rfl⟩ "executor" webSearchTool (by decide)
  exact ⟨h.1, h.2⟩

/-! ### Claim C5 — `register` then `getTool` -/

/-- Claim C5, counterexample: `arrayNoItemsTool` is accepted by `registerTool`
and `getTool` returns it exactly as registered — its `values` property is
array-typed with no `items` schema, so the returned definition does not carry
the `items` backfill the claim asserts. -/
theorem c5_getTool_counterexample :
    getTool (applyRegOp initialRegistry (RegOp.register arrayNoItemsTool)) "journey_steps"
      = some arrayNoItemsTool ∧
    (∃ ps, arrayNoItemsTool.parameters = some ps ∧
      ps.properties = [("values", valuesProp)]) ∧
    valuesProp.type = some "array" ∧ valuesProp.items = none := by
  refine ⟨by decide, ⟨_, rfl, rfl⟩, rfl, rfl⟩

/-- Claim C5 (amended): `register` followed by `getTool(name)` returns an
object equal to the registered definition exactly as given — `registerTool`
performs no schema normalization.  The array-`items` backfill is performed
only by the MCP client's `_validateAndFixToolDefinitions`, under which every
array-typed property does carry an `items` schema with a type. -/
theorem c5_getTool_amended :
    (∀ (s : RegistryState) (t : ToolDefinition),
        ¬ (t.name = "" ∨ t.description = "" ∨ t.parameters = none) →
        ∃ s', registerTool s t = Except.ok s' ∧ getTool s' t.name = some t) ∧
    (∀ (t : ToolDefinition) (ps : ParamsSchema),
        (validateAndFixToolDefinition t).parameters = some ps →
        ∀ pn p, (pn, p) ∈ ps.properties → p.type = some "array" →
        ∃ it, p.items = some it ∧ it.type ≠ none) := by
  constructor
  · intro s t hval
    refine ⟨{ tools := mapSet s.tools t.name t,
              agentTools := addToolToRoles s.agentTools (allowedRoles t) t.name }, ?_, ?_⟩
    · unfold registerTool
      rw [if_neg hval]
    · show mapGet? (mapSet s.tools t.name t) t.name = some t
      exact mapGet?_mapSet_self _ _ _
  · intro t ps hps pn p hmem harr
    cases hpar : t.parameters with
    | none =>
      rw [validateAndFix_params_none t hpar] at hps
      cases hps
    | some ps0 =>
      rw [validateAndFix_params t ps0 hpar] at hps
      cases hps
      have hmem' : (pn, p) ∈ ps0.properties.map (fun q => (q.1, fixPropSchema q.2)) := hmem
      rw [List.mem_map] at hmem'
      obtain ⟨q, hq, hqe⟩ := hmem'
      have hp : p = fixPropSchema q.2 := (congrArg Prod.snd hqe).symm
      rw [hp] at harr ⊢
      exact fixPropSchema_array q.2 harr

/-- Claim C5, witness for the amended theorem: registering `web_search` into
the empty registry and reading it back returns it unchanged. -/
theorem c5_getTool_witness :
    ¬ (webSearchTool.name = "" ∨ webSearchTool.description = ""
        ∨ webSearchTool.parameters = none) ∧
    (∃ s', registerTool emptyRegistry webSearchTool = Except.ok s' ∧
      getTool s' webSearchTool.name = some webSearchTool) :=
  ⟨by decide, (c5_getTool_amended.1 emptyRegistry webSearchTool (by decide))⟩

/-! ### Workflow fixtures -/

/-- All four role agents return normally. -/
def envAllOk : AgentEnv :=
  { thinker := Except.ok "analysis", planner := Except.ok "plan",
    executor := Except.ok "execution", reviewer := Except.ok "review" }

/-- The thinking agent throws. -/
def envThinkerFails : AgentEnv :=
  { thinker := Except.error "boom", planner := Except.ok "plan",
    executor := Except.ok "execution", reviewer := Except.ok "review" }

/-! ### Workflow helper lemmas -/

theorem applyWfEvent_update_history (now : Nat) (t : TaskState) (st : TaskStatus)
    (r : Option TaskResult) :
    (applyWfEvent now t (WfEvent.update st r)).history = t.history := by
  cases r with
  | none =>
    simp only [applyWfEvent]
    split <;> rfl
  | some res =>
    simp only [applyWfEvent]
    split <;> rfl

theorem foldl_applyWfEvent_history (now : Nat) (evs : List WfEvent) (t : TaskState) :
    ∃ rest, (evs.foldl (applyWfEvent now) t).history = t.history ++ rest := by
  induction evs generalizing t with
  | nil => exact ⟨[], (List.append_nil _).symm⟩
  | cons e es ih =>
    cases e with
    | update st r =>
      obtain ⟨rest, hrest⟩ := ih (applyWfEvent now t (WfEvent.update st r))
      refine ⟨rest, ?_⟩
      rw [List.foldl_cons, hrest, applyWfEvent_update_history]
    | append entry =>
      obtain ⟨rest, hrest⟩ := ih (applyWfEvent now t (WfEvent.append entry))
      refine ⟨[entry] ++ rest, ?_⟩
      rw [List.foldl_cons, hrest]
      rw [show (applyWfEvent now t (WfEvent.append entry)).history = t.history ++ [entry]
        from rfl]
      rw [List.append_assoc]

theorem runTask_split (env : AgentEnv) (prompt : String) (now : Nat) (k : Nat) :
    runTaskFromStart env prompt now =
      ((startTaskEvents env now).drop k).foldl (applyWfEvent now)
        (taskAfter env prompt now k) := by
  unfold runTaskFromStart taskAfter
  rw [← List.foldl_append, List.take_append_drop]

theorem runTask_history_labels (env : AgentEnv) (prompt : String) (now : Nat) :
    ∃ m, (runTaskFromStart env prompt now).history.map (fun e => e.phase)
      = [Phase.thinking, Phase.planning, Phase.executing, Phase.reviewing].take m := by
  obtain ⟨th, pl, ex, rv⟩ := env
  cases th with
  | error e => exact ⟨0, rfl⟩
  | ok thv =>
    cases pl with
    | error e => exact ⟨1, rfl⟩
    | ok plv =>
      cases ex with
      | error e => exact ⟨2, rfl⟩
      | ok exv =>
        cases rv with
        | error e => exact ⟨3, rfl⟩
        | ok rvv => exact ⟨4, rfl⟩

/-! ### Claim C2 — terminal-state invariant -/

/-- Claim C2, counterexample: when the thinking agent throws `boom`, the
orchestrator performs two `failed` updates — one in `_executeAgentWorkflow`'s
catch block and a second in `startTask`'s `.catch` on the re-thrown error —
so `endTime` is assigned twice and the failure is broadcast twice. -/
theorem c2_terminal_counterexample :
    startTaskEvents envThinkerFails 0 =
      [WfEvent.update TaskStatus.thinking none,
       WfEvent.update TaskStatus.failed (some (TaskResult.failure "boom")),
       WfEvent.update TaskStatus.failed (some (TaskResult.failure "boom"))] ∧
    terminalUpdateCount (startTaskEvents envThinkerFails 0) = 2 :=
  ⟨rfl, rfl⟩

/-- Claim C2 (amended): on a successful run there is exactly one terminal
(`endTime`-assigning, broadcast) update, the final `completed` one; on a
failed run the phase error is caught twice — once at the workflow boundary
and once more at the `startTask` launch boundary — producing exactly two
identical `failed` updates with `{error: message}` (so `endTime` is assigned
twice, the second overwriting the first), after which no further events
occur. -/
theorem c2_terminal_amended (env : AgentEnv) (now : Nat) :
    ((innerWorkflowEvents env now).2 = none ∧
      terminalUpdateCount (startTaskEvents env now) = 1 ∧
      (∃ r, (startTaskEvents env now).getLast? =
          some (WfEvent.update TaskStatus.completed (some r)))) ∨
    (∃ e pre, (innerWorkflowEvents env now).2 = some e ∧
      startTaskEvents env now =
        pre ++ [WfEvent.update TaskStatus.failed (some (TaskResult.failure e)),
                WfEvent.update TaskStatus.failed (some (TaskResult.failure e))] ∧
      terminalUpdateCount pre = 0) := by
  obtain ⟨th, pl, ex, rv⟩ := env
  cases th with
  | error e =>
    exact Or.inr ⟨e, [WfEvent.update TaskStatus.thinking none], rfl, rfl, rfl⟩
  | ok thv =>
    cases pl with
    | error e =>
      exact Or.inr ⟨e,
        [WfEvent.update TaskStatus.thinking none,
         WfEvent.append { phase := Phase.thinking, output := thv, timestamp := now },
         WfEvent.update TaskStatus.planning none], rfl, rfl, rfl⟩
    | ok plv =>
      cases ex with
      | error e =>
        exact Or.inr ⟨e,
          [WfEvent.update TaskStatus.thinking none,
           WfEvent.append { phase := Phase.thinking, output := thv, timestamp := now },
           WfEvent.update TaskStatus.planning none,
           WfEvent.append { phase := Phase.planning, output := plv, timestamp := now },
           WfEvent.update TaskStatus.executing none], rfl, rfl, rfl⟩
      | ok exv =>
        cases rv with
        | error e =>
          exact Or.inr ⟨e,
            [WfEvent.update TaskStatus.thinking none,
             WfEvent.append { phase := Phase.thinking, output := thv, timestamp := now },
             WfEvent.update TaskStatus.planning none,
             WfEvent.append { phase := Phase.planning, output := plv, timestamp := now },
             WfEvent.update TaskStatus.executing none,
             WfEvent.append { phase := Phase.executing, output := exv, timestamp := now },
             WfEvent.update TaskStatus.reviewing none], rfl, rfl, rfl⟩
        | ok rvv =>
          exact Or.inl ⟨rfl, rfl, ⟨TaskResult.aggregate thv plv exv rvv rvv, rfl⟩⟩

/-! ### Claim C3 — status sequence -/

/-- Claim C3, counterexample: `startTask` creates the task with status
`thinking`, never `pending`, so the sequence does not start at `pending`
as claimed (and `pending` never occurs at all). -/
theorem c3_statusSequence_counterexample :
    (newTask "document the journey" 0).status = TaskStatus.thinking ∧
    TaskStatus.thinking ≠ TaskStatus.pending ∧
    TaskStatus.pending ∉ statusTrace envAllOk 0 := by
  refine ⟨rfl, by decide, by decide⟩

/-- Claim C3 (amended): a task's status sequence starts at `thinking` at
creation (`pending` is never taken) and is exactly one of five sequences: the
full success chain `thinking, thinking, planning, executing, reviewing,
completed` (the creation status is immediately re-asserted by the first
update), or the chain truncated at the phase whose agent threw followed by
`failed` twice (the duplicate coming from `startTask`'s `.catch`). -/
theorem c3_statusSequence_amended (env : AgentEnv) (now : Nat) :
    statusTrace env now =
        [TaskStatus.thinking, TaskStatus.thinking, TaskStatus.planning,
         TaskStatus.executing, TaskStatus.reviewing, TaskStatus.completed] ∨
    statusTrace env now =
        [TaskStatus.thinking, TaskStatus.thinking, TaskStatus.failed, TaskStatus.failed] ∨
    statusTrace env now =
        [TaskStatus.thinking, TaskStatus.thinking, TaskStatus.planning,
         TaskStatus.failed, TaskStatus.failed] ∨
    statusTrace env now =
        [TaskStatus.thinking, TaskStatus.thinking, TaskStatus.planning,
         TaskStatus.executing, TaskStatus.failed, TaskStatus.failed] ∨
    statusTrace env now =
        [TaskStatus.thinking, TaskStatus.thinking, TaskStatus.planning,
         TaskStatus.executing, TaskStatus.reviewing, TaskStatus.failed,
         TaskStatus.failed] := by
  obtain ⟨th, pl, ex, rv⟩ := env
  cases th with
  | error e => exact Or.inr (Or.inl rfl)
  | ok thv =>
    cases pl with
    | error e => exact Or.inr (Or.inr (Or.inl rfl))
    | ok plv =>
      cases ex with
      | error e => exact Or.inr (Or.inr (Or.inr (Or.inl rfl)))
      | ok exv =>
        cases rv with
        | error e => exact Or.inr (Or.inr (Or.inr (Or.inr rfl)))
        | ok rvv => exact Or.inl rfl

/-! ### Claim C7 — task-id uniqueness -/

/-- Claim C7, counterexample: two distinct tasks started at the same
`Date.now()` millisecond receive the same id (and the second overwrites the
first in the task map), so ids are not collision-free within a process
lifetime. -/
theorem c7_taskId_counterexample :
    (startTask { tasks := [] } "document checkout journey" envAllOk 1700000000000).1 =
      (startTask
        ((startTask { tasks := [] } "document checkout journey" envAllOk 1700000000000).2)
        "document signup journey" envAllOk 1700000000000).1 ∧
    "document checkout journey" ≠ "document signup journey" :=
  ⟨rfl, by decide⟩

/-- Claim C7 (amended): the id is `Date.now().toString()`, so tasks created
at distinct clock milliseconds always receive distinct ids; only tasks
created within the same millisecond collide. -/
theorem c7_taskId_amended (s1 s2 : SystemState) (p1 p2 : String) (e1 e2 : AgentEnv)
    (n1 n2 : Nat) (h : n1 ≠ n2) :
    (startTask s1 p1 e1 n1).1 ≠ (startTask s2 p2 e2 n2).1 := by
  show genTaskId n1 ≠ genTaskId n2
  exact genTaskId_inj n1 n2 h

/-- Claim C7, witness: tasks created one millisecond apart get distinct ids. -/
theorem c7_taskId_witness :
    (1700000000000 : Nat) ≠ 1700000000001 ∧
    (startTask { tasks := [] } "a" envAllOk 1700000000000).1 ≠
      (startTask { tasks := [] } "b" envAllOk 1700000000001).1 :=
  ⟨by decide,
   c7_taskId_amended { tasks := [] } { tasks := [] } "a" "b" envAllOk envAllOk
     1700000000000 1700000000001 (by decide)⟩

/-! ### Claim C8 — history shape -/

/-- Claim C8: at every point of a task's run the history is append-only
(later snapshots extend earlier ones), its phase labels form a prefix of
`thinking, planning, executing, reviewing` (one record per completed phase,
in execution order), and its length never exceeds 4. -/
theorem c8_history (env : AgentEnv) (prompt : String) (now : Nat) (k kk : Nat)
    (hk : k ≤ kk) :
    (∃ rest, (taskAfter env prompt now kk).history =
        (taskAfter env prompt now k).history ++ rest) ∧
    (∃ m, (taskAfter env prompt now kk).history.map (fun e => e.phase) =
        [Phase.thinking, Phase.planning, Phase.executing, Phase.reviewing].take m) ∧
    (taskAfter env prompt now kk).history.length ≤ 4 := by
  have hsplit : (startTaskEvents env now).take kk =
      (startTaskEvents env now).take k ++ ((startTaskEvents env now).take kk).drop k := by
    conv_lhs => rw [← List.take_append_drop k ((startTaskEvents env now).take kk)]
    rw [List.take_take, Nat.min_eq_left hk]
  have h1 : taskAfter env prompt now kk =
      (((startTaskEvents env now).take kk).drop k).foldl (applyWfEvent now)
        (taskAfter env prompt now k) := by
    unfold taskAfter
    conv_lhs => rw [hsplit]
    rw [List.foldl_append]
  constructor
  · obtain ⟨rest, hrest⟩ := foldl_applyWfEvent_history now
      (((startTaskEvents env now).take kk).drop k) (taskAfter env prompt now k)
    exact ⟨rest, by rw [h1, hrest]⟩
  · obtain ⟨m0, hm0⟩ := runTask_history_labels env prompt now
    obtain ⟨rest2, hrest2⟩ := foldl_applyWfEvent_history now
      ((startTaskEvents env now).drop kk) (taskAfter env prompt now kk)
    rw [runTask_split env prompt now kk, hrest2, List.map_append] at hm0
    have hlab : (taskAfter env prompt now kk).history.map (fun e => e.phase) =
        ([Phase.thinking, Phase.planning, Phase.executing, Phase.reviewing].take m0).take
          (((taskAfter env prompt now kk).history.map (fun e => e.phase)).length) := by
      rw [← hm0, List.take_left]
    constructor
    · exact ⟨_, hlab.trans (List.take_take _ _ _)⟩
    · have hlen := congrArg List.length hlab
      rw [List.length_map, List.length_take] at hlen
      have h4 : ([Phase.thinking, Phase.planning, Phase.executing,
          Phase.reviewing].take m0).length ≤ 4 := by
        rw [List.length_take]
        exact le_trans (Nat.min_le_right _ _) (by norm_num)
      calc (taskAfter env prompt now kk).history.length
          = min (taskAfter env prompt now kk).history.length
              ([Phase.thinking, Phase.planning, Phase.executing,
                Phase.reviewing].take m0).length := hlen
        _ ≤ ([Phase.thinking, Phase.planning, Phase.executing,
              Phase.reviewing].take m0).length := Nat.min_le_right _ _
        _ ≤ 4 := h4

/-- Claim C8, witness: on the all-success run, the history after 9 events
extends the history after 1 event, with labels a prefix of the four phases
and length at most 4. -/
theorem c8_history_witness :
    (1 : Nat) ≤ 9 ∧
    ((∃ rest, (taskAfter envAllOk "p" 0 9).history =
        (taskAfter envAllOk "p" 0 1).history ++ rest) ∧
     (∃ m, (taskAfter envAllOk "p" 0 9).history.map (fun e => e.phase) =
        [Phase.thinking, Phase.planning, Phase.executing, Phase.reviewing].take m) ∧
     (taskAfter envAllOk "p" 0 9).history.length ≤ 4) :=
  ⟨by decide, c8_history envAllOk "p" 0 1 9 (by decide)⟩

/-! ### Claim C4 — broadcast fan-out -/

/-- Two subscribers, the first of which throws. -/
def c4Clients : List (String × (String → Except String Unit)) :=
  [("client_a", fun _ => Except.error "subscriber failure"),
   ("client_b", fun _ => Except.ok ())]

theorem broadcastUpdate_cons_ok {α : Type} (clientId : String)
    (sendFn : α → Except String Unit) (rest : List (String × (α → Except String Unit)))
    (update : α) (u : Unit) (h : sendFn update = Except.ok u) :
    broadcastUpdate ((clientId, sendFn) :: rest) update =
      (clientId :: (broadcastUpdate rest update).1, (broadcastUpdate rest update).2) := by
  simp only [broadcastUpdate]
  rw [h]

theorem broadcastUpdate_cons_error {α : Type} (clientId : String)
    (sendFn : α → Except String Unit) (rest : List (String × (α → Except String Unit)))
    (update : α) (e : String) (h : sendFn update = Except.error e) :
    broadcastUpdate ((clientId, sendFn) :: rest) update = ([clientId], some e) := by
  simp only [broadcastUpdate]
  rw [h]

/-- Claim C4, counterexample: with two registered subscribers whose first
callback throws, only the first is invoked — the exception aborts the loop
and `client_b` never receives the event, refuting isolation of per-callback
failures. -/
theorem c4_broadcast_counterexample :
    (broadcastUpdate c4Clients "task_update").1 = ["client_a"] ∧
    "client_b" ∉ (broadcastUpdate c4Clients "task_update").1 := by
  refine ⟨rfl, ?_⟩
  rw [show (broadcastUpdate c4Clients "task_update").1 = ["client_a"] from rfl]
  decide

/-- Claim C4 (amended): `broadcastUpdate` invokes the registered callbacks
synchronously in registration order, but failures are not isolated: when
every callback returns, all are invoked in order; when some callback throws,
the callbacks before it and itself are invoked, the remaining subscribers are
skipped, and the exception propagates to the broadcasting caller. -/
theorem c4_broadcast_amended {α : Type} (update : α) :
    (∀ clients : List (String × (α → Except String Unit)),
        (∀ c ∈ clients, c.2 update = Except.ok ()) →
        broadcastUpdate clients update = (clients.map (fun c => c.1), none)) ∧
    (∀ (pre post : List (String × (α → Except String Unit)))
        (c : String × (α → Except String Unit)) (e : String),
        (∀ p ∈ pre, p.2 update = Except.ok ()) → c.2 update = Except.error e →
        broadcastUpdate (pre ++ c :: post) update =
          (pre.map (fun p => p.1) ++ [c.1], some e)) := by
  constructor
  · intro clients hall
    induction clients with
    | nil => rfl
    | cons c0 cs ih =>
      obtain ⟨cid, fn⟩ := c0
      have h0 : fn update = Except.ok () := hall (cid, fn) (List.mem_cons_self _ _)
      rw [broadcastUpdate_cons_ok cid fn cs update () h0,
        ih (fun c hc => hall c (List.mem_cons_of_mem _ hc))]
      rfl
  · intro pre post c e hpre hc
    induction pre with
    | nil =>
      obtain ⟨cid, fn⟩ := c
      rw [List.nil_append]
      exact broadcastUpdate_cons_error cid fn post update e hc
    | cons p0 ps ih =>
      obtain ⟨pid, pfn⟩ := p0
      have h0 : pfn update = Except.ok () := hpre (pid, pfn) (List.mem_cons_self _ _)
      rw [List.cons_append,
        broadcastUpdate_cons_ok pid pfn (ps ++ c :: post) update () h0,
        ih (fun p hp => hpre p (List.mem_cons_of_mem _ hp))]
      rfl

/-- Claim C4, witness for the amended theorem: two well-behaved subscribers
both receive the event in registration order; and in the counterexample
configuration the failure of `client_a` yields exactly the truncated
delivery. -/
theorem c4_broadcast_witness :
    broadcastUpdate [("client_a", fun _ : String => Except.ok ()),
                     ("client_b", fun _ : String => Except.ok ())] "task_started" =
      (["client_a", "client_b"], none) := by
  have h := (c4_broadcast_amended "task_started").1
    [("client_a", fun _ : String => Except.ok ()),
     ("client_b", fun _ : String => Except.ok ())]
  rw [h]
  · rfl
  · intro c hc
    rcases List.mem_cons.mp hc with rfl | hc2
    · rfl
    · rcases List.mem_cons.mp hc2 with rfl | hc3
      · rfl
      · exact absurd hc3 (List.not_mem_nil c)

/-! ### Claim C6 — `executeTool` request/response contract -/

theorem executeTool_run (timeoutMs : Nat) (baseUrl : String) (env : MCPEnv)
    (st : ClientState) (toolName args : String)
    (hstart : st.isRunning = true ∨ env.startResult = Except.ok ()) :
    (executeTool timeoutMs baseUrl env st toolName args).result =
        wrapToolError (makeRequest timeoutMs env.http) ∧
    (executeTool timeoutMs baseUrl env st toolName args).requests =
        [{ method := "POST", url := baseUrl ++ "/api/tools/" ++ formatToolName toolName,
           payload := args }] ∧
    (st.isRunning = false →
        (executeTool timeoutMs baseUrl env st toolName args).startCalls = 1) := by
  obtain ⟨sres, http⟩ := env
  obtain ⟨b⟩ := st
  cases b with
  | true => exact ⟨rfl, rfl, fun h => Bool.noConfusion h⟩
  | false =>
    rcases hstart with hrun | hok
    · exact Bool.noConfusion hrun
    · cases sres with
      | ok u =>
        cases u
        exact ⟨rfl, rfl, fun _ => rfl⟩
      | error e => exact Except.noConfusion hok

/-- Claim C6: when the client is already running or its lazy `start()`
succeeds, `executeTool` issues exactly one POST to
`baseUrl + "/api/tools/" + formattedName` (and invokes `start()` exactly once
when it was not running); the call returns the parsed body on a 2xx response
and rejects, with the upstream message preserved inside the error, on a
non-success status, a transport failure, or a timeout — with no retry, since
only the one request is ever issued. -/
theorem c6_executeTool (timeoutMs : Nat) (baseUrl : String) (env : MCPEnv)
    (st : ClientState) (toolName args : String)
    (hstart : st.isRunning = true ∨ env.startResult = Except.ok ()) :
    (executeTool timeoutMs baseUrl env st toolName args).requests =
        [{ method := "POST", url := baseUrl ++ "/api/tools/" ++ formatToolName toolName,
           payload := args }] ∧
    (st.isRunning = false →
        (executeTool timeoutMs baseUrl env st toolName args).startCalls = 1) ∧
    (∀ status raw v, env.http = HttpOutcome.response status raw (Except.ok v) →
        (200 ≤ status ∧ status < 300) → raw ≠ "" →
        (executeTool timeoutMs baseUrl env st toolName args).result = Except.ok v) ∧
    (∀ status raw parsed, env.http = HttpOutcome.response status raw parsed →
        ¬ (200 ≤ status ∧ status < 300) →
        (executeTool timeoutMs baseUrl env st toolName args).result =
          Except.error ("Tool execution failed: HTTP error " ++ toString status
            ++ ": " ++ raw)) ∧
    (∀ msg, env.http = HttpOutcome.transportError msg →
        (executeTool timeoutMs baseUrl env st toolName args).result =
          Except.error ("Tool execution failed: Request failed: " ++ msg)) ∧
    (env.http = HttpOutcome.timeout →
        (executeTool timeoutMs baseUrl env st toolName args).result =
          Except.error ("Tool execution failed: Request timed out after "
            ++ toString timeoutMs ++ "ms")) := by
  obtain ⟨hres, hreq, hsc⟩ := executeTool_run timeoutMs baseUrl env st toolName args hstart
  refine ⟨hreq, hsc, ?_, ?_, ?_, ?_⟩
  · intro status raw v hhttp h2 hraw
    rw [hres, hhttp]
    simp only [makeRequest]
    rw [if_pos h2, if_neg hraw]
    rfl
  · intro status raw parsed hhttp hn2
    rw [hres, hhttp]
    simp only [makeRequest]
    rw [if_neg hn2]
    rfl
  · intro msg hhttp
    rw [hres, hhttp]
    rfl
  · intro hhttp
    rw [hres, hhttp]
    rfl

/-- Claim C6, witness: a stopped client with a successful start and a 200
response issues the one normalized POST and returns the parsed body. -/
theorem c6_executeTool_witness :
    ((⟨false⟩ : ClientState).isRunning = true ∨
      ({ startResult := Except.ok (),
         http := HttpOutcome.response 200 "ok" (Except.ok "ok") } : MCPEnv).startResult
        = Except.ok ()) ∧
    (executeTool 60000 "http://localhost:3001"
        { startResult := Except.ok (),
          http := HttpOutcome.response 200 "ok" (Except.ok "ok") }
        ⟨false⟩ "navigate" "target url").requests =
      [{ method := "POST", url := "http://localhost:3001/api/tools/browser_navigate",
         payload := "target url" }] ∧
    (executeTool 60000 "http://localhost:3001"
        { startResult := Except.ok (),
          http := HttpOutcome.response 200 "ok" (Except.ok "ok") }
        ⟨false⟩ "navigate" "target url").result = Except.ok "ok" := by
  have h := c6_executeTool 60000 "http://localhost:3001"
    { startResult := Except.ok (), http := HttpOutcome.response 200 "ok" (Except.ok "ok") }
    ⟨false⟩ "navigate" "target url" (Or.inr rfl)
  refine ⟨Or.inr rfl, ?_, ?_⟩
  · rw [h.1]
    decide
  · exact h.2.2.1 200 "ok" "ok" rfl (by decide) (by decide)

/-! ### Claim C10 — wire-name normalization -/

theorem hasBrowserWireName_append (s : String) :
    hasBrowserWireName ("browser_" ++ s) = true := by
  unfold hasBrowserWireName
  rw [show ("browser_" ++ s).data = "browser_".data ++ s.data from String.data_append _ _]
  rw [ List.isPrefixOf_iff_prefix]
  exact List.prefix_append _ _

/-- Claim C10: the wire-name normalization always yields a `browser_`-prefixed
name, is idempotent (an already-prefixed name is left unchanged), and hence
`executeTool n` and `executeTool ("browser_" ++ n)` for an unprefixed `n`
issue their requests to the same endpoint URL. -/
theorem c10_wireName :
    (∀ toolName : String, hasBrowserWireName (formatToolName toolName) = true) ∧
    (∀ toolName : String, formatToolName (formatToolName toolName) = formatToolName toolName) ∧
    (∀ (timeoutMs : Nat) (baseUrl : String) (env : MCPEnv) (st : ClientState)
        (n args : String), hasBrowserWireName n = false →
        (executeTool timeoutMs baseUrl env st n args).requests =
          (executeTool timeoutMs baseUrl env st ("browser_" ++ n) args).requests) := by
  have hfmt : ∀ n : String, hasBrowserWireName n = false →
      formatToolName n = "browser_" ++ n := by
    intro n hb
    unfold formatToolName
    rw [if_neg (by rw [hb]; exact Bool.noConfusion)]
  have hpos : ∀ n : String, hasBrowserWireName n = true → formatToolName n = n := by
    intro n hb
    unfold formatToolName
    rw [if_pos hb]
  refine ⟨?_, ?_, ?_⟩
  · intro toolName
    by_cases hb : hasBrowserWireName toolName = true
    · rw [hpos toolName hb]
      exact hb
    · rw [hfmt toolName (Bool.eq_false_iff.mpr hb)]
      exact hasBrowserWireName_append toolName
  · intro toolName
    by_cases hb : hasBrowserWireName toolName = true
    · rw [hpos toolName hb, hpos toolName hb]
    · rw [hfmt toolName (Bool.eq_false_iff.mpr hb),
        hpos _ (hasBrowserWireName_append toolName)]
  · intro timeoutMs baseUrl env st n args hb
    have hsame : formatToolName n = formatToolName ("browser_" ++ n) := by
      rw [hfmt n hb, hpos _ (hasBrowserWireName_append n)]
    unfold executeTool
    rw [hsame]

/-- Claim C10, witness: `navigate` is unprefixed and its request list matches
that of `browser_navigate`. -/
theorem c10_wireName_witness :
    hasBrowserWireName "navigate" = false ∧
    (executeTool 60000 "http://localhost:3001"
        { startResult := Except.ok (), http := HttpOutcome.timeout }
        ⟨true⟩ "navigate" "arg").requests =
      (executeTool 60000 "http://localhost:3001"
        { startResult := Except.ok (), http := HttpOutcome.timeout }
        ⟨true⟩ "browser_navigate" "arg").requests :=
  ⟨by decide,
   c10_wireName.2.2 60000 "http://localhost:3001"
     { startResult := Except.ok (), http := HttpOutcome.timeout }
     ⟨true⟩ "navigate" "arg" (by decide)⟩

end UserJourney
